import Mathlib

/-!
Verification development for the vscode-sast repository.

The repository's decidable core is a line-oriented regular-expression
scanner, a rule-based fix generator and a fix applier, spread over the
extension sources and the Next.js API routes.  This file gives a shallow
embedding of those functions over `List Char` (JS strings) and proves or
refutes the specified properties.

Conventions for the embedding of JavaScript:
* strings are `List Char`; `String.split('\n')` is `splitNl`, `join('\n')`
  is `joinNl`;
* regular expressions are values of the small syntax `RE` below, with a
  backtracking matcher whose candidate order mirrors JavaScript priority
  (alternatives left first, greedy stars longest first, lazy stars
  shortest first);
* a regex with the `g` flag carries its `lastIndex` state explicitly:
  `jsTestG` returns the test result together with the updated
  `lastIndex`, following `RegExpBuiltinExec` (search starts at
  `lastIndex`; a failed test resets `lastIndex` to 0, a successful one
  sets it to the end of the match);
* `Math.max(0, _)` on non-negative data is truncated `Nat` subtraction.
-/

namespace VscodeSast

/-- The backtick character (written by code to avoid a literal backtick). -/
def btick : Char := Char.ofNat 96

/-- The single-quote character. -/
def squo : Char := Char.ofNat 39

/-- JavaScript `\s` on the ASCII range (space, tab, CR, LF, VT, FF). -/
def isJsSpace (c : Char) : Bool :=
  c == ' ' || c == '\t' || c == '\r' || c == '\n' || c == Char.ofNat 11 || c == Char.ofNat 12

/-- The character class `['"\x60]` used by the vulnerability regexes. -/
def isQuoteCh (c : Char) : Bool := c == squo || c == '"' || c == btick

/-- The negated class `[^'"\x60]`. -/
def notQuoteCh (c : Char) : Bool := !(isQuoteCh c)

/-- The negated class `[^)]`. -/
def notParen (c : Char) : Bool := !(c == ')')

/-- The `.` class of a regex without the `s` flag: any char except newline. -/
def notNl (c : Char) : Bool := !(c == '\n')

/-- JS `\w`: ASCII letters, digits and underscore. -/
def isWordCh (c : Char) : Bool := c.isAlphanum || c == '_'

/-- Small regex syntax covering the patterns appearing in the sources:
character classes, sequencing, alternation, greedy and lazy star of a
class, and a single capture-group marker. -/
inductive RE where
  | eps : RE
  | cls (p : Char → Bool) : RE
  | seq (a b : RE) : RE
  | alt (a b : RE) : RE
  | starG (p : Char → Bool) : RE
  | starL (p : Char → Bool) : RE
  | grp (r : RE) : RE

/-- Remainders of greedily matching `p*`, longest consumption first
(JavaScript backtracking priority for a greedy star). -/
def starGMatches (p : Char → Bool) : List Char → List (List Char)
  | [] => [[]]
  | c :: cs => if p c then starGMatches p cs ++ [c :: cs] else [c :: cs]

/-- Remainders of lazily matching `p*?`, shortest consumption first. -/
def starLMatches (p : Char → Bool) : List Char → List (List Char)
  | [] => [[]]
  | c :: cs => if p c then (c :: cs) :: starLMatches p cs else [c :: cs]

/-- All remainders of matching `r` at the head of the input, in
JavaScript backtracking priority order. -/
def REmatches : RE → List Char → List (List Char)
  | .eps, cs => [cs]
  | .cls _, [] => []
  | .cls p, c :: cs => if p c then [cs] else []
  | .seq a b, cs => (REmatches a cs).flatMap (fun cs1 => REmatches b cs1)
  | .alt a b, cs => REmatches a cs ++ REmatches b cs
  | .starG p, cs => starGMatches p cs
  | .starL p, cs => starLMatches p cs
  | .grp r, cs => REmatches r cs

/-- Like `REmatches` but also returns the text consumed by the (single)
`grp` marker, when one was traversed.  In `seq`, a capture made by the
right component wins (the patterns in the sources contain at most one
group, so this never discards information). -/
def REmatchesC : RE → List Char → List (List Char × Option (List Char))
  | .eps, cs => [(cs, none)]
  | .cls _, [] => []
  | .cls p, c :: cs => if p c then [(cs, none)] else []
  | .seq a b, cs =>
      (REmatchesC a cs).flatMap
        (fun pr => (REmatchesC b pr.1).map (fun qr => (qr.1, qr.2.orElse (fun _ => pr.2))))
  | .alt a b, cs => REmatchesC a cs ++ REmatchesC b cs
  | .starG p, cs => (starGMatches p cs).map (fun r => (r, none))
  | .starL p, cs => (starLMatches p cs).map (fun r => (r, none))
  | .grp r, cs =>
      (REmatchesC r cs).map (fun pr => (pr.1, some (cs.take (cs.length - pr.1.length))))

/-- Leftmost search: first position `≥ pos` where `r` matches, returned
as `(matchStart, matchEnd)` in absolute indices. -/
def searchAux (r : RE) : List Char → Nat → Option (Nat × Nat)
  | [], pos =>
      match (REmatches r []).head? with
      | some _ => some (pos, pos)
      | none => none
  | c :: cs, pos =>
      match (REmatches r (c :: cs)).head? with
      | some rem => some (pos, pos + ((c :: cs).length - rem.length))
      | none => searchAux r cs (pos + 1)

/-- `regex.test(s)` for a regex without the `g` flag (stateless). -/
def jsTest (r : RE) (s : List Char) : Bool := (searchAux r s 0).isSome

/-- `regex.test(s)` for a regex with the `g` flag: takes the current
`lastIndex`, returns the result and the updated `lastIndex`
(`RegExpBuiltinExec`: out-of-range or failed search resets to 0, a
successful match stores the match end). -/
def jsTestG (r : RE) (s : List Char) (lastIndex : Nat) : Bool × Nat :=
  if lastIndex > s.length then (false, 0)
  else
    match searchAux r (s.drop lastIndex) lastIndex with
    | some e => (true, e.2)
    | none => (false, 0)

/-- One fuelled pass of `String.prototype.replace` with a `g` regex.
`tpl` builds the replacement from the full match and the `$1` capture.
Fuel `cs.length + 1` always suffices: every step either consumes a
non-empty match or emits one input character. -/
def replFuel (r : RE) (tpl : List Char → Option (List Char) → List Char) :
    Nat → List Char → List Char
  | 0, cs => cs
  | fuel + 1, cs =>
      match (REmatchesC r cs).head? with
      | some pr =>
          let consumed := cs.length - pr.1.length
          if consumed = 0 then
            match cs with
            | [] => tpl [] pr.2
            | c :: cs1 => tpl [] pr.2 ++ c :: replFuel r tpl fuel cs1
          else tpl (cs.take consumed) pr.2 ++ replFuel r tpl fuel pr.1
      | none =>
          match cs with
          | [] => []
          | c :: cs1 => c :: replFuel r tpl fuel cs1

/-- `s.replace(re, tpl)` for a global regex. -/
def jsReplaceAll (r : RE) (tpl : List Char → Option (List Char) → List Char)
    (cs : List Char) : List Char :=
  replFuel r tpl (cs.length + 1) cs

/-- Does `s` start with `pat`? (helper for `hasSub`). -/
def strHead : List Char → List Char → Bool
  | [], _ => true
  | _ :: _, [] => false
  | p :: ps, c :: cs => p == c && strHead ps cs

/-- `s.includes(pat)` on JS strings. -/
def hasSub : List Char → List Char → Bool
  | [], pat => strHead pat []
  | c :: cs, pat => strHead pat (c :: cs) || hasSub cs pat

/-- Literal string regex; `ci = true` for the `i` flag (ASCII folding as
in the canonicalisation of case-insensitive JS regexes). -/
def reStr (ci : Bool) : List Char → RE
  | [] => .eps
  | c :: cs => .seq (.cls (fun x => if ci then x.toLower == c.toLower else x == c)) (reStr ci cs)

/-- Single literal character. -/
def reCh (c : Char) : RE := .cls (fun x => x == c)

/-- `p+` as `p p*`. -/
def rePlus (p : Char → Bool) : RE := .seq (.cls p) (.starG p)

/-- Greedy `r?`. -/
def reOpt (r : RE) : RE := .alt r .eps

/-- `\s*`. -/
def reSp0 : RE := .starG isJsSpace

/-- `String.split('\n')` (JS semantics: the empty string yields one empty
line; a trailing newline yields a trailing empty line). -/
def splitNl : List Char → List (List Char)
  | [] => [[]]
  | c :: cs =>
      match splitNl cs with
      | [] => [[]]
      | h :: t => if c = '\n' then [] :: h :: t else (c :: h) :: t

/-- `Array.prototype.join('\n')`. -/
def joinNl : List (List Char) → List Char
  | [] => []
  | [l] => l
  | l :: ls => l ++ '\n' :: joinNl ls

/-- `String.prototype.trim()` (ASCII whitespace). -/
def trimJs (s : List Char) : List Char :=
  ((s.dropWhile isJsSpace).reverse.dropWhile isJsSpace).reverse

/-!
## Pattern catalog and scanner (extension `extension.ts`, `performScan` /
`getVulnerabilityPatterns` / `generateFix` / `applyFixes`)

The detection regexes all carry the `gi` flags.  `getVulnerabilityPatterns`
is called inside `performScan`, so every scan starts from fresh regex
objects (`lastIndex = 0`), but within one scan the same regex object is
reused across lines and its `lastIndex` persists between the per-line
`test` calls; the scanner model threads one `lastIndex` per pattern.
-/

/-- `/execute\s*\(\s*['"\x60][^'"\x60]*['"\x60]\s*\+/gi` (SQL Injection). -/
def executeRE : RE :=
  .seq (reStr true ("execute".data))
    (.seq reSp0 (.seq (reCh '(')
      (.seq reSp0 (.seq (.cls isQuoteCh)
        (.seq (.starG notQuoteCh) (.seq (.cls isQuoteCh) (.seq reSp0 (reCh '+'))))))))

/-- `(password|pwd|pass)` with the group marked (its text is `$1` in the
fix template). -/
def pwdAltRE : RE :=
  .grp (.alt (reStr true ("password".data)) (.alt (reStr true ("pwd".data)) (reStr true ("pass".data))))

/-- `/(password|pwd|pass)\s*=\s*['"\x60][^'"\x60]+['"\x60]/gi` (Hardcoded Password). -/
def passwordRE : RE :=
  .seq pwdAltRE
    (.seq reSp0 (.seq (reCh '=')
      (.seq reSp0 (.seq (.cls isQuoteCh) (.seq (rePlus notQuoteCh) (.cls isQuoteCh))))))

/-- `/eval\s*\(/gi` (Eval Usage; the same literal regex is also used by
the Eval Usage branch of `generateFix`). -/
def evalRE : RE := .seq (reStr true ("eval".data)) (.seq reSp0 (reCh '('))

/-- `/innerHTML\s*=|document\.write\s*\(/gi` (XSS Vulnerability). -/
def xssRE : RE :=
  .alt (.seq (reStr true ("innerHTML".data)) (.seq reSp0 (reCh '=')))
    (.seq (reStr true ("document.write".data)) (.seq reSp0 (reCh '(')))

/-- `/(md5|sha1)\s*\(/gi` (Weak Crypto). -/
def weakCryptoRE : RE :=
  .seq (.alt (reStr true ("md5".data)) (reStr true ("sha1".data))) (.seq reSp0 (reCh '('))

/-- `/pickle\.loads?\s*\(/gi` (Pickle Unsafe, python only). -/
def pickleRE : RE :=
  .seq (reStr true ("pickle.load".data))
    (.seq (reOpt (.cls (fun x => x.toLower == 's'))) (.seq reSp0 (reCh '(')))

/-- `/os\.system\s*\(|subprocess\.call\s*\(/gi` (Shell Command Injection,
python only). -/
def shellRE : RE :=
  .alt (.seq (reStr true ("os.system".data)) (.seq reSp0 (reCh '(')))
    (.seq (reStr true ("subprocess.call".data)) (.seq reSp0 (reCh '(')))

/-- `/innerHTML\s*=/gi`, the fresh literal used by the XSS branch of
`generateFix`. -/
def innerHtmlEqRE : RE := .seq (reStr true ("innerHTML".data)) (.seq reSp0 (reCh '='))

/-- `/sha1\s*\(/gi`, the fresh literal used by the live branch of the
Weak Crypto case of `generateFix`. -/
def sha1FixRE : RE := .seq (reStr true ("sha1".data)) (.seq reSp0 (reCh '('))

/-- One entry of `getVulnerabilityPatterns`: type, severity, detection
regex, description and the advisory `fix` string. -/
structure PatternEntry where
  ptype : String
  severity : String
  re : RE
  description : String
  advice : String

/-- The five language-independent entries, in source order. -/
def basePatterns : List PatternEntry :=
  [⟨"SQL Injection", "high", executeRE, "Potential SQL injection vulnerability",
    "Use parameterized queries or prepared statements"⟩,
   ⟨"Hardcoded Password", "high", passwordRE, "Hardcoded password detected",
    "Use environment variables or secure configuration"⟩,
   ⟨"Eval Usage", "high", evalRE, "Use of eval() function is dangerous",
    "Use safer alternatives like JSON.parse() or specific parsers"⟩,
   ⟨"XSS Vulnerability", "medium", xssRE, "Potential XSS vulnerability",
    "Use textContent or sanitize HTML properly"⟩,
   ⟨"Weak Crypto", "medium", weakCryptoRE, "Weak cryptographic algorithm detected",
    "Use stronger algorithms like SHA-256 or bcrypt"⟩]

/-- `getVulnerabilityPatterns(language)`: the base list, plus two extra
entries when the language is python. -/
def vulnerabilityPatterns (language : String) : List PatternEntry :=
  basePatterns ++
    (if language = "python" then
      [⟨"Pickle Unsafe", "high", pickleRE, "Unsafe pickle usage can lead to code execution",
        "Use safe serialization formats like JSON"⟩,
       ⟨"Shell Command Injection", "high", shellRE, "Potential shell command injection",
        "Use parameterized commands or proper escaping"⟩]
     else [])

/-- `generateFix(line, pattern, language)`.  All the `replace` calls use
fresh inline regex literals, so they carry no `lastIndex` state.  In the
Weak Crypto case the source guards on `pattern.regex.test('md5')`, which
is always false (the string `md5` contains no parenthesis), so only the
`sha1` branch is live; the replacement strings of that case are written
with malformed quoting in the source (`'crypto.createHash('sha256').update('`)
and the evident intended string is used here. -/
def generateFix (line : List Char) (ptype : String) (language : String) : List Char :=
  if ptype = "SQL Injection" then
    if language = "python" then
      jsReplaceAll executeRE
        (fun _ _ => ("execute(\"SELECT * FROM table WHERE id = ?\", (user_input,))").data) line
    else
      jsReplaceAll executeRE
        (fun _ _ => ("execute(\"SELECT * FROM table WHERE id = ?\", [userInput])").data) line
  else if ptype = "Hardcoded Password" then
    jsReplaceAll passwordRE
      (fun _ cap => cap.getD [] ++ (" = process.env.PASSWORD || \"\"").data) line
  else if ptype = "Eval Usage" then
    jsReplaceAll evalRE (fun _ _ => ("JSON.parse(").data) line
  else if ptype = "XSS Vulnerability" then
    jsReplaceAll innerHtmlEqRE (fun _ _ => ("textContent =").data) line
  else if ptype = "Weak Crypto" then
    jsReplaceAll sha1FixRE (fun _ _ => ("crypto.createHash(\x27sha256\x27).update(").data) line
  else
    ("// TODO: Fix ".data) ++ ptype.data ++ (" vulnerability".data) ++ ('\n' :: line)

/-- A scanner finding (the extension `Vulnerability` interface: it has no
generated identifier field). -/
structure ScanVuln where
  vtype : String
  severity : String
  line : Nat
  description : String
  fixed_code : Option (List Char)
deriving DecidableEq

/-- One line of `performScan`'s scanning loop: fold over the pattern list
with each pattern's `lastIndex`.  On a hit, the finding is pushed with
`generateFix`; the Weak Crypto case of `generateFix` additionally calls
`pattern.regex.test('md5')` on the shared detection regex, which always
fails and therefore resets that regex's `lastIndex` to 0. -/
def scanLine (language : String) (n : Nat) (line : List Char) :
    List PatternEntry → List Nat → List ScanVuln × List Nat
  | [], _ => ([], [])
  | _ :: _, [] => ([], [])
  | p :: ps, s :: sts =>
      let r := jsTestG p.re line s
      let rest := scanLine language n line ps sts
      let s1 := if r.1 && (p.ptype == "Weak Crypto") then 0 else r.2
      ((if r.1 then
          [⟨p.ptype, p.severity, n, p.description, some (generateFix line p.ptype language)⟩]
        else []) ++ rest.1,
       s1 :: rest.2)

/-- The scanning loop over all lines, threading the per-pattern
`lastIndex` state and 1-based line numbers. -/
def scanLinesAux (language : String) (ps : List PatternEntry) :
    List (List Char) → Nat → List Nat → List ScanVuln
  | [], _, _ => []
  | l :: ls, n, sts =>
      let step := scanLine language n l ps sts
      step.1 ++ scanLinesAux language ps ls (n + 1) step.2

/-- `performScan`: split the document text into lines, build the fresh
pattern list for the language (all `lastIndex` start at 0) and scan. -/
def performScan (text : String) (language : String) : List ScanVuln :=
  scanLinesAux language (vulnerabilityPatterns language) (splitNl text.data) 1
    (List.replicate (vulnerabilityPatterns language).length 0)

/-- `applyFixes` sorts by `(a, b) => b.line - a.line`; JS `Array.sort` is
stable and this comparator is consistent, so insertion sort with
`b.line ≤ a.line` models it. -/
def sortByLineDesc (vs : List ScanVuln) : List ScanVuln :=
  List.insertionSort (fun a b => b.line ≤ a.line) vs

/-- One fix application of `applyFixes`: guarded by `vuln.fixed_code` and
`lineIndex < lines.length` (against the line count of the text captured
at scan time), the edit replaces the whole character range of the target
line. -/
def fixStep (origLen : Nat) (acc : List (List Char)) (v : ScanVuln) : List (List Char) :=
  match v.fixed_code with
  | some f => if v.line - 1 < origLen then acc.set (v.line - 1) f else acc
  | none => acc

/-- `applyFixes(editor, vulnerabilities, lines)`: sort descending by line
and apply each fix as a whole-line replacement. -/
def applyFixes (vulns : List ScanVuln) (lines : List (List Char)) : List (List Char) :=
  (sortByLineDesc vulns).foldl (fixStep lines.length) lines

/-- The identifier-free view of a finding named by the determinism claim
(type, severity, line, description, suggested fixed code) — the
extension's `Vulnerability` has exactly these fields and no generated
identifier. -/
def findingView (v : ScanVuln) : String × String × Nat × String × Option (List Char) :=
  (v.vtype, v.severity, v.line, v.description, v.fixed_code)

/-!
## JSON values and JS field access

The API routes parse the external model's reply with `JSON.parse` and
read fields off the result.  `Json` is the value domain; `undefined` stands
for JavaScript `undefined` (an absent field).  The external call itself
is abstracted as `Except Unit Json`: `.error` covers both a thrown
call and a reply that `JSON.parse` rejects.
-/

/-- JSON values plus `undefined`. -/
inductive Json where
  | undefined : Json
  | jnull : Json
  | jbool (b : Bool) : Json
  | num (n : Int) : Json
  | str (s : List Char) : Json
  | arr (elems : List Json) : Json
  | obj (fields : List (String × Json)) : Json

/-- JavaScript truthiness of a `Json` value. -/
def truthy : Json → Bool
  | .undefined => false
  | .jnull => false
  | .jbool b => b
  | .num n => n != 0
  | .str s => s != []
  | .arr _ => true
  | .obj _ => true

/-- `a || b`. -/
def jsOr (a b : Json) : Json := if truthy a then a else b

/-- Property access `j[k]` on a parsed JSON value: a field of an object,
`undefined` otherwise.  (Access on `null` throws in JS; the callers below
handle the `null` case before calling this.) -/
def jsGetField (j : Json) (k : String) : Json :=
  match j with
  | .obj fs => (((fs.find? (fun p => p.1 == k)).map (fun p => p.2)).getD .undefined)
  | _ => .undefined

/-!
## Fix route (`api/ai/fix/route.ts`): `validateFix`,
`generateRuleBasedFix`, `generateAIFix`, `getCodeContext`
-/

/-- `validateFix`'s `/eval\s*\(/` (no flags: case-sensitive, stateless). -/
def vEvalRE : RE := .seq (reStr false ("eval".data)) (.seq reSp0 (reCh '('))

/-- `validateFix`'s `/innerHTML\s*=/`. -/
def vInnerRE : RE := .seq (reStr false ("innerHTML".data)) (.seq reSp0 (reCh '='))

/-- `validateFix`'s `/password\s*=\s*['"\x60][^'"\x60]+['"\x60]/`. -/
def vPasswordRE : RE :=
  .seq (reStr false ("password".data))
    (.seq reSp0 (.seq (reCh '=')
      (.seq reSp0 (.seq (.cls isQuoteCh) (.seq (rePlus notQuoteCh) (.cls isQuoteCh))))))

/-- `validateFix`'s `/(SELECT|INSERT|UPDATE|DELETE).*\+.*['"\x60]/`. -/
def vSqlRE : RE :=
  .seq (.alt (reStr false ("SELECT".data))
          (.alt (reStr false ("INSERT".data))
            (.alt (reStr false ("UPDATE".data)) (reStr false ("DELETE".data)))))
    (.seq (.starG notNl) (.seq (reCh '+') (.seq (.starG notNl) (.cls isQuoteCh))))

/-- `validateFix(fixedCode, originalCode)`: returns `isValid`, i.e.
whether the issues list stays empty.  `originalLines.length * 0.5` is
exact in IEEE doubles, so the length check is `2·|o − f| > o` over
integers. -/
def validateFix (fixedCode : List Char) (originalCode : List Char) : Bool :=
  let i1 := fixedCode == [] || trimJs fixedCode == []
  let oLen := (splitNl originalCode).length
  let fLen := (splitNl fixedCode).length
  let i2 := decide (2 * ((oLen : Int) - (fLen : Int)).natAbs > oLen)
  let i3 := jsTest vEvalRE fixedCode || jsTest vInnerRE fixedCode ||
            jsTest vPasswordRE fixedCode || jsTest vSqlRE fixedCode
  let i4 := hasSub fixedCode ("```".data)
  !(i1 || i2 || i3 || i4)

/-- `/eval\s*\(\s*([^)]+)\s*\)/g` of the Code Injection rule-based fix. -/
def evalArgRE : RE :=
  .seq (reStr false ("eval".data))
    (.seq reSp0 (.seq (reCh '(')
      (.seq reSp0 (.seq (.grp (rePlus notParen)) (.seq reSp0 (reCh ')'))))))

/-- `/\.innerHTML\s*=/g` of the XSS rule-based fix. -/
def dotInnerRE : RE :=
  .seq (reCh '.') (.seq (reStr false ("innerHTML".data)) (.seq reSp0 (reCh '=')))

/-- `/(['"\x60])[^'"\x60]*password[^'"\x60]*\1/gi` of the Hardcoded
Credentials rule-based fix.  The backreference `\1` is expanded into an
alternation over the three concrete quote characters; this is exact
because the inner classes exclude every quote character. -/
def quotedPwdRE : RE :=
  let one := fun (q : Char) =>
    .seq (reCh q)
      (.seq (.starG notQuoteCh)
        (.seq (reStr true ("password".data)) (.seq (.starG notQuoteCh) (reCh q))))
  .alt (one squo) (.alt (one '"') (one btick))

/-- `/(SELECT\s+.*?\s+FROM\s+\w+\s+WHERE\s+\w+)\s*\+\s*['"\x60]([^'"\x60]+)['"\x60]/g`
of the SQL Injection rule-based fix.  Only the first group is referenced
by the template (`$1 = ?`), so only it carries the `grp` marker. -/
def sqlFixRE : RE :=
  .seq (.grp (.seq (reStr false ("SELECT".data))
    (.seq (rePlus isJsSpace) (.seq (.starL notNl)
      (.seq (rePlus isJsSpace) (.seq (reStr false ("FROM".data))
        (.seq (rePlus isJsSpace) (.seq (rePlus isWordCh)
          (.seq (rePlus isJsSpace) (.seq (reStr false ("WHERE".data))
            (.seq (rePlus isJsSpace) (rePlus isWordCh))))))))))))
    (.seq reSp0 (.seq (reCh '+')
      (.seq reSp0 (.seq (.cls isQuoteCh) (.seq (rePlus notQuoteCh) (.cls isQuoteCh))))))

/-- The `vulnerability` argument of the fix route (fields it reads).
`line` is an `Int`: it arrives from the request body and may be out of
the text's bounds in either direction. -/
structure FixVuln where
  vid : String
  vtype : String
  severity : String
  line : Int
  description : String
  suggestedFix : Option (List Char)

/-- The route's `FixResponse`.  Fields that pass through the parsed AI
reply are `Json`-valued. -/
structure FixResponse where
  success : Bool
  fixedCode : Json
  explanation : Json
  confidence : Json
  changes : Json

/-- `lines[i]` for a JS array index that may be negative or beyond the
end: `undefined` (`none`) outside `[0, length)`. -/
def jsIndex (l : List (List Char)) (i : Int) : Option (List Char) :=
  if i < 0 then none else l.get? i.toNat

/-- `lines[i] = v` on a JS array: in-range assignment replaces, an index
beyond the end extends the array with holes (rendered as empty strings
by `join('\n')`, so modelled as empty lines), and a negative index sets
a non-element property that `join` ignores. -/
def jsSetIndex (l : List (List Char)) (i : Int) (v : List Char) : List (List Char) :=
  if i < 0 then l
  else if i.toNat < l.length then l.set i.toNat v
  else l ++ List.replicate (i.toNat - l.length) [] ++ [v]

/-- Template-literal interpolation of a possibly-`undefined` string. -/
def undefStr (t : Option (List Char)) : List Char := t.getD ("undefined".data)

/-- The `switch (vulnerability.type)` of `generateRuleBasedFix`,
computing `(fixedLine, explanation, confidence)`.  For the recognised
vulnerability types the source immediately calls
`targetLine.includes(...)`, which throws a `TypeError` when the target
line is `undefined` (modelled as `.error ()`); the `default` branch only
interpolates `targetLine` into a template string, which stringifies
`undefined`. -/
def ruleFixCore (vtype : String) (description : String) (targetLine : Option (List Char)) :
    Except Unit (List Char × List Char × Int) :=
  if vtype = "Code Injection" ∨ vtype = "javascript:S4784" then
    match targetLine with
    | none => .error ()
    | some t =>
        .ok (if hasSub t ("eval(".data) then
              (jsReplaceAll evalArgRE (fun _ cap => ("JSON.parse(").data ++ cap.getD [] ++ [')']) t,
               ("Replaced eval() with JSON.parse() to prevent code injection").data, 85)
             else (t, [], 70))
  else if vtype = "Cross-Site Scripting (XSS)" ∨ vtype = "javascript:S5443" then
    match targetLine with
    | none => .error ()
    | some t =>
        .ok (if hasSub t ("innerHTML".data) then
              (jsReplaceAll dotInnerRE (fun _ _ => (".textContent =").data) t,
               ("Replaced innerHTML with textContent to prevent XSS").data, 90)
             else (t, [], 70))
  else if vtype = "Hardcoded Credentials" ∨ vtype = "javascript:S2068" then
    match targetLine with
    | none => .error ()
    | some t =>
        .ok (if hasSub t ("password".data) && hasSub t ("=".data) then
              (jsReplaceAll quotedPwdRE (fun _ _ => ("process.env.PASSWORD").data) t,
               ("Replaced hardcoded password with environment variable").data, 80)
             else (t, [], 70))
  else if vtype = "SQL Injection" ∨ vtype = "javascript:S2077" then
    match targetLine with
    | none => .error ()
    | some t =>
        .ok (if hasSub t ("SELECT".data) && hasSub t ("+".data) then
              (jsReplaceAll sqlFixRE (fun _ cap => cap.getD [] ++ (" = ?").data) t,
               ("Replaced string concatenation with parameterized query").data, 85)
             else (t, [], 70))
  else
    .ok (("// TODO: Fix security issue - ").data ++ description.data ++ ('\n' :: undefStr targetLine),
         ("Added security comment for manual review and fix").data, 50)

/-- `generateRuleBasedFix(vulnerability, code, language)`.  The returned
record always carries `success: true`; a thrown `TypeError` (out-of-range
target line under a recognised type) propagates to the HTTP handler. -/
def generateRuleBasedFix (vuln : FixVuln) (code : String) (language : String) :
    Except Unit FixResponse :=
  let lines := splitNl code.data
  let targetLine := jsIndex lines (vuln.line - 1)
  match ruleFixCore vuln.vtype vuln.description targetLine with
  | .error e => .error e
  | .ok fc =>
      let newLines := jsSetIndex lines (vuln.line - 1) fc.1
      .ok { success := true
            fixedCode := .str (joinNl newLines)
            explanation := .str fc.2.1
            confidence := .num fc.2.2
            changes := .arr [.obj
              [("line", .num vuln.line),
               ("original", (targetLine.map Json.str).getD .undefined),
               ("fixed", .str fc.1),
               ("reason", .str fc.2.1)]] }

/-- `generateAIFix`, abstracted over the outcome of the external call
(`.error` for a thrown call or an unparseable reply).  When the parsed
reply's `fixedCode` is a string, `validateFix` decides `success`;
otherwise (`null` reply, or a non-string `fixedCode` whose `.split`
throws inside `validateFix`) the `catch` falls back to
`generateRuleBasedFix`. -/
def generateAIFix (vuln : FixVuln) (code : String) (language : String)
    (outcome : Except Unit Json) : Except Unit FixResponse :=
  match outcome with
  | .error _ => generateRuleBasedFix vuln code language
  | .ok j =>
      match j with
      | .jnull => generateRuleBasedFix vuln code language
      | _ =>
          match jsGetField j ("fixedCode") with
          | .str s =>
              .ok { success := validateFix s code.data
                    fixedCode := .str s
                    explanation := jsGetField j ("explanation")
                    confidence := jsGetField j ("confidence")
                    changes := jsGetField j ("changes") }
          | _ => generateRuleBasedFix vuln code language

/-- `getCodeContext(code, lineNumber, contextLines = 3)` of the fix and
analyze routes: `lines.slice(max(0, L − 4), min(lines.length, L + 3))`
joined (1-based window `L−3 .. L+3` clipped to the text). -/
def getCodeContextRoute (code : String) (lineNumber : Nat) : List Char :=
  joinNl (((splitNl code.data).drop (lineNumber - 4)).take
    (min (splitNl code.data).length (lineNumber + 3) - (lineNumber - 4)))

/-!
## Analyze route (`api/ai/analyze/route.ts`): `enhanceVulnerabilityWithAI`,
`mapSeverity`, `getCodeContext`

`mapSeverity` here is textually identical to `AIService.mapSeverity` in
the extension's `aiService.ts`; one definition covers both.
-/

/-- The four-valued severity union type. -/
inductive Sev where
  | critical : Sev
  | high : Sev
  | medium : Sev
  | low : Sev
deriving DecidableEq

/-- What `mapSeverity` actually returns: one of the four severity
strings, or a member inherited from `Object.prototype` (a method, or the
prototype itself for `__proto__`) — every inherited value is a truthy
object, so `|| 'medium'` does not replace it; the model records which
member was hit. -/
inductive SevResult where
  | sev (s : Sev) : SevResult
  | inherited (name : String) : SevResult
deriving DecidableEq

/-- The own-property lookup table of `mapSeverity` (the object
literal's own keys). -/
def sevMapping : List (String × Sev) :=
  [("BLOCKER", .critical), ("CRITICAL", .critical), ("MAJOR", .high),
   ("MINOR", .medium), ("INFO", .low)]

/-- The string keys that a property read on a plain object literal finds
on `Object.prototype` instead of yielding `undefined` (the standard
methods, plus the `__proto__` accessor and the legacy Annex B accessor
methods present in all engines); each resolves to a truthy object. -/
def objectProtoKeys : List String :=
  ["constructor", "hasOwnProperty", "isPrototypeOf", "propertyIsEnumerable",
   "toLocaleString", "toString", "valueOf", "__proto__",
   "__defineGetter__", "__defineSetter__", "__lookupGetter__", "__lookupSetter__"]

/-- `mapSeverity(sonarSeverity)`: the property access
`mapping[sonarSeverity]` first finds an own key of the literal, then
walks the prototype chain to `Object.prototype`, and only otherwise
yields `undefined`; `|| 'medium'` replaces only the `undefined` case,
since both the table's severity strings and the inherited members are
truthy. -/
def mapSeverity (sonarSeverity : String) : SevResult :=
  match (sevMapping.find? (fun p => p.1 == sonarSeverity)).map (fun p => p.2) with
  | some s => .sev s
  | none =>
      if sonarSeverity ∈ objectProtoKeys then .inherited sonarSeverity
      else .sev .medium

/-- The incoming vulnerability record of the analyze route (the fields it
reads).  Its `line` stems from scanner or SonarQube findings, which are
1-based. -/
structure InVuln where
  key : String
  rule : String
  severity : String
  line : Nat
  message : String
  vtype : String

/-- The route's `EnhancedVulnerability`; the enrichment-provided fields
are `Json`-valued pass-throughs. -/
structure Enhanced where
  id : String
  severity : SevResult
  vtype : String
  file : String
  line : Nat
  description : String
  status : String
  confidence : Json
  suggestedFix : Json
  aiAnalysis : Json

/-- The `catch` result of `enhanceVulnerabilityWithAI`: the finding is
kept with default confidence 70 and no suggested fix. -/
def enhanceFallback (v : InVuln) (fileName : String) : Enhanced :=
  { id := v.key, severity := mapSeverity v.severity, vtype := v.vtype, file := fileName,
    line := v.line, description := v.message, status := "detected",
    confidence := .num 70, suggestedFix := .undefined, aiAnalysis := .undefined }

/-- `enhanceVulnerabilityWithAI`, abstracted over the external call
(`.error` = the call threw or `JSON.parse` rejected the reply, both of
which land in the `catch`).  A reply parsing to `null` also lands in the
`catch` (`null.confidence` throws).  Otherwise the finding is built from
the parsed reply, with `aiResponse.confidence || 75` as confidence. -/
def enhanceVulnerabilityWithAI (v : InVuln) (fileName : String)
    (outcome : Except Unit Json) : Enhanced :=
  match outcome with
  | .error _ => enhanceFallback v fileName
  | .ok .jnull => enhanceFallback v fileName
  | .ok j =>
      { id := v.key, severity := mapSeverity v.severity, vtype := v.vtype, file := fileName,
        line := v.line, description := v.message, status := "detected",
        confidence := jsOr (jsGetField j ("confidence")) (.num 75),
        suggestedFix := jsGetField j ("suggestedFix"),
        aiAnalysis := jsGetField j ("explanation") }

/-- The route's enhancement loop: each finding is enhanced with its own
outcome, in order; no outcome removes or reorders other findings. -/
def enhanceBatch (fileName : String) (items : List (InVuln × Except Unit Json)) :
    List Enhanced :=
  items.map (fun it => enhanceVulnerabilityWithAI it.1 fileName it.2)

/-!
## Extension `aiService.ts`: `calculateConfidence`, `getCodeContext`,
`enhanceWithAI`
-/

/-- `calculateConfidence(code, issue)`: base 70; +15 for severity
BLOCKER/CRITICAL, else +10 for MAJOR; +10 when the rule id contains
S4784 or S5443; −5 when the line is longer than 100 characters; capped
at 95 by `Math.min`. -/
def calculateConfidence (code : String) (issueSeverity : String) (issueRule : String) : Nat :=
  let c0 := 70
  let c1 := if issueSeverity = "BLOCKER" ∨ issueSeverity = "CRITICAL" then c0 + 15
            else if issueSeverity = "MAJOR" then c0 + 10 else c0
  let c2 := if hasSub issueRule.data ("S4784".data) || hasSub issueRule.data ("S5443".data)
            then c1 + 10 else c1
  let c3 := if code.length > 100 then c2 - 5 else c2
  min c3 95

/-- `AIService.getCodeContext(document, lineNumber)`: collects
`document.lineAt(i)` for `i` in `[max(0, L − 3), min(lineCount, L + 3))`
(a 1-based window `L−2 .. L+3`, unlike the routes' `L−3 .. L+3`). -/
def getCodeContextService (documentLines : List (List Char)) (lineNumber : Nat) : List Char :=
  joinNl ((documentLines.drop (lineNumber - 3)).take
    (min documentLines.length (lineNumber + 3) - (lineNumber - 3)))

/-- The result of `AIService.analyzeWithAI` (simulated enrichment). -/
structure AIAnalysis where
  confidence : Int
  suggestedFix : List Char
  explanation : List Char

/-- The extension `Vulnerability` record produced by
`AIService.enhanceWithAI`. -/
structure AIVuln where
  id : String
  severity : SevResult
  vtype : String
  file : String
  line : Nat
  description : String
  status : String
  confidence : Option Int
  suggestedFix : Option (List Char)
  aiFix : Option (List Char)

/-- `AIService.enhanceWithAI(document, sonarIssue)`, abstracted over the
AI analysis outcome: on a thrown analysis the `catch` keeps the finding
with default confidence 70 and no suggested fix. -/
def enhanceWithAI (issue : InVuln) (fileName : String)
    (outcome : Except Unit AIAnalysis) : AIVuln :=
  match outcome with
  | .ok a =>
      { id := issue.key, severity := mapSeverity issue.severity, vtype := issue.vtype,
        file := fileName, line := issue.line, description := issue.message,
        status := "detected", confidence := some a.confidence,
        suggestedFix := some a.suggestedFix, aiFix := some a.explanation }
  | .error _ =>
      { id := issue.key, severity := mapSeverity issue.severity, vtype := issue.vtype,
        file := fileName, line := issue.line, description := issue.message,
        status := "detected", confidence := some 70,
        suggestedFix := none, aiFix := none }

/-!
## Spec-side definitions used to compare code behaviour against claim
wording
-/

/-- The confidence formula as worded by the spec (claim C5): baseline 70,
+15 when the entry is flagged well-known, −5 when the matched line
exceeds 100 characters, capped at 95. -/
def claimConfidenceC5 (wellKnown : Bool) (lineLen : Nat) : Nat :=
  min (70 + (if wellKnown then 15 else 0) - (if lineLen > 100 then 5 else 0)) 95

/-- The context window as worded by the spec (claim C9): exactly the
lines whose 1-based number lies in `[L − 3, L + 3]`, clipped to the text
(clipping at 1 is Nat truncation). -/
def claimContextWindow (code : String) (lineNumber : Nat) : List Char :=
  joinNl (((List.enumFrom 1 (splitNl code.data)).filter
    (fun p => decide (lineNumber - 3 ≤ p.1) && decide (p.1 ≤ lineNumber + 3))).map (fun p => p.2))

/-!
## Helper lemmas
-/

/-- Filtering an enumeration by an index interval is a slice. -/
theorem enumFrom_filter_range {α : Type} (l : List α) :
    ∀ (s a b : Nat),
      (((List.enumFrom s l).filter
        (fun p => decide (a ≤ p.1) && decide (p.1 ≤ b))).map (fun p => p.2))
      = (l.drop (a - s)).take (b + 1 - max a s) := by
  induction l with
  | nil => intro s a b; simp
  | cons x l ih =>
      intro s a b
      rw [List.enumFrom_cons, List.filter_cons]
      by_cases hc : a ≤ s ∧ s ≤ b
      · rw [if_pos (by simp [hc.1, hc.2])]
        have h1 : a - s = 0 := by omega
        have h2 : a - (s + 1) = 0 := by omega
        have h3 : max a s = s := by omega
        have h4 : max a (s + 1) = s + 1 := by omega
        rw [List.map_cons, ih (s + 1) a b, h1, h2, h3, h4, List.drop_zero, List.drop_zero]
        have h5 : b + 1 - s = (b - s) + 1 := by omega
        have h6 : b + 1 - (s + 1) = b - s := by omega
        rw [h5, h6, List.take_succ_cons]
      · rw [if_neg (by simp only [Bool.and_eq_true, decide_eq_true_eq]; omega)]
        rw [ih (s + 1) a b]
        rcases Nat.lt_or_ge s a with hlt | hge
        · have h1 : max a s = a := by omega
          have h2 : max a (s + 1) = a := by omega
          have h3 : a - s = (a - (s + 1)) + 1 := by omega
          rw [h1, h2, h3, List.drop_succ_cons]
        · have h1 : a - s = 0 := by omega
          have h2 : a - (s + 1) = 0 := by omega
          have t1 : b + 1 - max a s = 0 := by omega
          have t2 : b + 1 - max a (s + 1) = 0 := by omega
          rw [h1, h2, t1, t2]
          simp

/-!
## Claim C10
-/

/-- Counterexample to claim C10 as stated: `mapSeverity('toString')`
finds `Object.prototype.toString` through the prototype chain of the
object literal; a function object is truthy, so `|| 'medium'` never
fires, and the result is not one of the four severities. -/
theorem c10_counterexample :
    mapSeverity ("toString") = SevResult.inherited ("toString") ∧
    mapSeverity ("toString") ≠ SevResult.sev Sev.critical ∧
    mapSeverity ("toString") ≠ SevResult.sev Sev.high ∧
    mapSeverity ("toString") ≠ SevResult.sev Sev.medium ∧
    mapSeverity ("toString") ≠ SevResult.sev Sev.low := by
  decide

/-- Claim C10 (amended): BLOCKER and CRITICAL map to critical, MAJOR to
high, MINOR to medium, INFO to low, and a string that is neither a table
key nor an `Object.prototype` property name maps to medium — but the
function is not total into the four severities: for each
`Object.prototype` property name (`constructor`, `toString`, `valueOf`,
`hasOwnProperty`, ...) the lookup returns the inherited truthy member
instead of a severity. -/
theorem c10_mapSeverity_prototype_chain :
    mapSeverity ("BLOCKER") = SevResult.sev Sev.critical ∧
    mapSeverity ("CRITICAL") = SevResult.sev Sev.critical ∧
    mapSeverity ("MAJOR") = SevResult.sev Sev.high ∧
    mapSeverity ("MINOR") = SevResult.sev Sev.medium ∧
    mapSeverity ("INFO") = SevResult.sev Sev.low ∧
    (∀ s : String, s ≠ "BLOCKER" → s ≠ "CRITICAL" → s ≠ "MAJOR" → s ≠ "MINOR" →
      s ≠ "INFO" → s ∉ objectProtoKeys → mapSeverity s = SevResult.sev Sev.medium) ∧
    (∀ s : String, s ∈ objectProtoKeys → mapSeverity s = SevResult.inherited s) := by
  refine ⟨rfl, rfl, rfl, rfl, rfl, ?_, ?_⟩
  · intro s h1 h2 h3 h4 h5 h6
    have e1 : (("BLOCKER" : String) == s) = false := beq_eq_false_iff_ne.mpr (Ne.symm h1)
    have e2 : (("CRITICAL" : String) == s) = false := beq_eq_false_iff_ne.mpr (Ne.symm h2)
    have e3 : (("MAJOR" : String) == s) = false := beq_eq_false_iff_ne.mpr (Ne.symm h3)
    have e4 : (("MINOR" : String) == s) = false := beq_eq_false_iff_ne.mpr (Ne.symm h4)
    have e5 : (("INFO" : String) == s) = false := beq_eq_false_iff_ne.mpr (Ne.symm h5)
    simp [mapSeverity, sevMapping, List.find?, e1, e2, e3, e4, e5, h6]
  · intro s hs
    fin_cases hs <;> decide

/-- Witness for C10 at a concrete unknown severity string and a concrete
inherited property name. -/
theorem c10_witness :
    mapSeverity ("SOMETHING_ELSE") = SevResult.sev Sev.medium ∧
    mapSeverity ("valueOf") = SevResult.inherited ("valueOf") :=
  ⟨c10_mapSeverity_prototype_chain.2.2.2.2.2.1 ("SOMETHING_ELSE")
      (by decide) (by decide) (by decide) (by decide) (by decide) (by decide),
   c10_mapSeverity_prototype_chain.2.2.2.2.2.2 ("valueOf") (by decide)⟩

/-!
## Claim C5
-/

/-- Counterexample to claim C5 as stated: for a BLOCKER issue whose rule
is not one of the well-known ids and a short line, the code computes 85
(70 + 15 severity bonus) while the claimed formula gives 70. -/
theorem c5_counterexample :
    calculateConfidence ("x") ("BLOCKER") ("javascript:S0000") = 85 ∧
    claimConfidenceC5 false (("x" : String).length) = 70 ∧ (85 : Nat) ≠ 70 := by
  decide

/-- Claim C5 (amended): the default confidence is
`min 95 (70 + severity bonus + well-known-rule bonus − length penalty)`
where the severity bonus is 15 for BLOCKER/CRITICAL and 10 for MAJOR,
the rule bonus is 10 (not 15) when the rule id contains S4784 or S5443,
and the length penalty is 5 for lines over 100 characters. -/
theorem c5_calculateConfidence_closed_form (code sev rule : String) :
    calculateConfidence code sev rule =
      min (70 + (if sev = "BLOCKER" ∨ sev = "CRITICAL" then 15
                 else if sev = "MAJOR" then 10 else 0)
              + (if hasSub rule.data ("S4784".data) || hasSub rule.data ("S5443".data)
                 then 10 else 0)
              - (if code.length > 100 then 5 else 0)) 95 := by
  simp only [calculateConfidence]
  split_ifs <;> omega

/-!
## Claim C9
-/

/-- Counterexample to claim C9 as stated: on a seven-line text with the
finding at line 4 the claimed window is lines 1..7, but
`AIService.getCodeContext` returns lines 2..7 (its window is
`L−2 .. L+3`). -/
theorem c9_counterexample :
    getCodeContextService (splitNl (("a\nb\nc\nd\ne\nf\ng").data)) 4 ≠
      claimContextWindow ("a\nb\nc\nd\ne\nf\ng") 4 := by
  decide

/-- Claim C9 (amended): the routes' `getCodeContext` returns exactly the
`L−3 .. L+3` window clipped to the text, as claimed, while the
extension's `AIService.getCodeContext` returns the asymmetric
`L−2 .. L+3` window clipped to the text. -/
theorem c9_context_windows (code : String) (L : Nat) (hL : 1 ≤ L) :
    getCodeContextRoute code L = claimContextWindow code L ∧
    getCodeContextService (splitNl code.data) L =
      joinNl (((List.enumFrom 1 (splitNl code.data)).filter
        (fun p => decide (L - 2 ≤ p.1) && decide (p.1 ≤ L + 3))).map (fun p => p.2)) := by
  constructor
  · unfold getCodeContextRoute claimContextWindow
    rw [enumFrom_filter_range]
    have hd : (L - 3) - 1 = L - 4 := by omega
    rw [hd]
    congr 1
    rw [List.take_eq_take, List.length_drop]
    omega
  · unfold getCodeContextService
    rw [enumFrom_filter_range]
    have hd : (L - 2) - 1 = L - 3 := by omega
    rw [hd]
    congr 1
    rw [List.take_eq_take, List.length_drop]
    omega

/-- Witness for C9 at a concrete text and line. -/
theorem c9_witness :
    getCodeContextRoute ("a\nb\nc\nd\ne\nf\ng") 2 = claimContextWindow ("a\nb\nc\nd\ne\nf\ng") 2 :=
  (c9_context_windows ("a\nb\nc\nd\ne\nf\ng") 2 (by decide)).1

/-!
## Claim C4
-/

/-- Counterexample to claim C4 as stated: a reply that parses as the
empty JSON object cannot be read as the expected structured record, yet
the finding is returned with confidence 75 (the `|| 75` fallback), not
the claimed default 70. -/
theorem c4_counterexample :
    (enhanceVulnerabilityWithAI ⟨"k1", "r1", "MAJOR", 3, "msg", "T"⟩ ("app.ts")
      (.ok (Json.obj []))).confidence = Json.num 75 ∧ Json.num 75 ≠ Json.num 70 := by
  exact ⟨rfl, by simp⟩

/-- Claim C4 (amended): when the external call throws or its reply fails
`JSON.parse` (or parses to `null`), the finding keeps default confidence
70 with no suggested fix; when the reply parses but carries no (truthy)
`confidence` field, the fallback confidence is 75; in every case, each
finding of a batch is enhanced from its own outcome only, so one failed
enrichment never aborts or alters the rest of the batch.  The
extension-side `AIService.enhanceWithAI` keeps confidence 70 and no
suggested fix on a thrown analysis as claimed. -/
theorem c4_enrichment_failure_is_local (v : InVuln) (f : String) :
    ((enhanceVulnerabilityWithAI v f (.error ())).confidence = Json.num 70 ∧
     (enhanceVulnerabilityWithAI v f (.error ())).suggestedFix = Json.undefined) ∧
    ((enhanceVulnerabilityWithAI v f (.ok .jnull)).confidence = Json.num 70 ∧
     (enhanceVulnerabilityWithAI v f (.ok .jnull)).suggestedFix = Json.undefined) ∧
    (∀ j : Json, j ≠ .jnull → truthy (jsGetField j ("confidence")) = false →
      (enhanceVulnerabilityWithAI v f (.ok j)).confidence = Json.num 75) ∧
    (∀ (items : List (InVuln × Except Unit Json)) (i : Nat),
      (enhanceBatch f items).get? i =
        (items.get? i).map (fun it => enhanceVulnerabilityWithAI it.1 f it.2)) ∧
    ((enhanceWithAI v f (.error ())).confidence = some 70 ∧
     (enhanceWithAI v f (.error ())).suggestedFix = none) := by
  refine ⟨⟨rfl, rfl⟩, ⟨rfl, rfl⟩, ?_, ?_, rfl, rfl⟩
  · intro j hj htr
    cases j with
    | jnull => exact absurd rfl hj
    | undefined => simp [enhanceVulnerabilityWithAI, jsOr, htr]
    | jbool b => simp [enhanceVulnerabilityWithAI, jsOr, htr]
    | num n => simp [enhanceVulnerabilityWithAI, jsOr, htr]
    | str s => simp [enhanceVulnerabilityWithAI, jsOr, htr]
    | arr a => simp [enhanceVulnerabilityWithAI, jsOr, htr]
    | obj o => simp [enhanceVulnerabilityWithAI, jsOr, htr]
  · intro items i
    unfold enhanceBatch
    rw [List.get?_map]

/-- Witness for C4 at a concrete finding, reply and batch. -/
theorem c4_witness :
    (enhanceVulnerabilityWithAI ⟨"k2", "r2", "INFO", 1, "m", "T"⟩ ("a.ts")
      (.ok (Json.obj [("explanation", Json.str ("e".data))]))).confidence = Json.num 75 :=
  (c4_enrichment_failure_is_local ⟨"k2", "r2", "INFO", 1, "m", "T"⟩ ("a.ts")).2.2.1
    (Json.obj [("explanation", Json.str ("e".data))]) (by simp) (by rfl)

/-!
## Claim C1
-/

/-- Counterexample to claim C1 as stated: for a Hardcoded Credentials
finding on `password = "secret"` the rule-based fix regex
`/(['"\x60])[^'"\x60]*password[^'"\x60]*\1/gi` finds no quoted string
containing `password`, so the line is returned unchanged — yet the
result reports `success: true`, while the originating line-level
detection (`/password\s*=\s*['"\x60][^'"\x60]+['"\x60]/`) still matches
the proposed replacement. -/
theorem c1_counterexample :
    generateRuleBasedFix
        ⟨"v1", "Hardcoded Credentials", "high", 1, "Hardcoded credentials detected", none⟩
        ("password = \"secret\"") ("javascript") =
      .ok { success := true
            fixedCode := .str (("password = \"secret\"").data)
            explanation := .str (("Replaced hardcoded password with environment variable").data)
            confidence := .num 80
            changes := .arr [.obj
              [("line", .num 1),
               ("original", .str (("password = \"secret\"").data)),
               ("fixed", .str (("password = \"secret\"").data)),
               ("reason", .str (("Replaced hardcoded password with environment variable").data))]] }
    ∧ jsTest vPasswordRE (("password = \"secret\"").data) = true
    ∧ jsTest passwordRE (("password = \"secret\"").data) = true := by
  exact ⟨rfl, rfl, rfl⟩

/-- Claim C1 (amended): only the AI-suggested path is validated, and its
`success` equals exactly the outcome of `validateFix` — which checks a
fixed list of four vulnerability regexes and structural heuristics, not
the originating entry's detect predicate; the rule-based fallback always
reports `success: true` with no re-validation, even when the flagged
pattern is still present in the replacement. -/
theorem c1_success_vs_validation :
    (∀ (vuln : FixVuln) (code language : String) (j : Json) (s : List Char),
      j ≠ .jnull → jsGetField j ("fixedCode") = .str s →
      generateAIFix vuln code language (.ok j) =
        .ok { success := validateFix s code.data
              fixedCode := .str s
              explanation := jsGetField j ("explanation")
              confidence := jsGetField j ("confidence")
              changes := jsGetField j ("changes") }) ∧
    (∀ (vuln : FixVuln) (code language : String),
      1 ≤ vuln.line → vuln.line ≤ ((splitNl code.data).length : Int) →
      ∃ r, generateRuleBasedFix vuln code language = .ok r ∧ r.success = true) := by
  constructor
  · intro vuln code language j s hj hfc
    cases j with
    | jnull => exact absurd rfl hj
    | undefined => simp only [generateAIFix, hfc]
    | jbool b => simp only [generateAIFix, hfc]
    | num n => simp only [generateAIFix, hfc]
    | str t => simp only [generateAIFix, hfc]
    | arr a => simp only [generateAIFix, hfc]
    | obj o => simp only [generateAIFix, hfc]
  · intro vuln code language h1 h2
    have htarget : ∃ t, jsIndex (splitNl code.data) (vuln.line - 1) = some t := by
      unfold jsIndex
      rw [if_neg (by omega)]
      have hlt : (vuln.line - 1).toNat < (splitNl code.data).length := by omega
      exact ⟨_, List.get?_eq_get hlt⟩
    obtain ⟨t, ht⟩ := htarget
    have hcore : ∃ fc, ruleFixCore vuln.vtype vuln.description (some t) = .ok fc := by
      unfold ruleFixCore
      split_ifs <;> exact ⟨_, rfl⟩
    obtain ⟨fc, hfc⟩ := hcore
    have heq : generateRuleBasedFix vuln code language = .ok
        { success := true
          fixedCode := .str (joinNl (jsSetIndex (splitNl code.data) (vuln.line - 1) fc.1))
          explanation := .str fc.2.1
          confidence := .num fc.2.2
          changes := .arr [.obj
            [("line", .num vuln.line), ("original", .str t),
             ("fixed", .str fc.1), ("reason", .str fc.2.1)]] } := by
      simp [generateRuleBasedFix, ht, hfc]
    exact ⟨_, heq, rfl⟩

/-- Witness for C1: the AI path at a concrete reply whose `fixedCode`
still contains `eval(` gets `success = false` from `validateFix`, and
the rule-based path at a concrete in-bounds request gets
`success = true`. -/
theorem c1_witness :
    (generateAIFix ⟨"w1", "Code Injection", "high", 1, "d", none⟩ ("eval(x)") ("javascript")
        (.ok (Json.obj [("fixedCode", Json.str (("eval(x)").data))])) =
      .ok { success := validateFix (("eval(x)").data) (("eval(x)").data)
            fixedCode := .str (("eval(x)").data)
            explanation := Json.undefined
            confidence := Json.undefined
            changes := Json.undefined }) ∧
    (∃ r, generateRuleBasedFix ⟨"w2", "Some Other Type", "low", 1, "d", none⟩ ("x = 1") ("javascript") =
      .ok r ∧ r.success = true) :=
  ⟨c1_success_vs_validation.1 ⟨"w1", "Code Injection", "high", 1, "d", none⟩ ("eval(x)")
      ("javascript") (Json.obj [("fixedCode", Json.str (("eval(x)").data))])
      (("eval(x)").data) (by simp) (by rfl),
   c1_success_vs_validation.2 ⟨"w2", "Some Other Type", "low", 1, "d", none⟩ ("x = 1")
      ("javascript") (by decide) (by decide)⟩

/-!
## Claim C8
-/

/-- Counterexample to claim C8 as stated: a fix request whose finding
targets line 5 of a two-line text, with a type outside the recognised
switch cases, is not rejected: `generateRuleBasedFix` reports
`success: true` and the returned code has been extended with two empty
lines and a TODO line holding the stringified `undefined` target. -/
theorem c8_counterexample :
    generateRuleBasedFix ⟨"v2", "Insecure Randomness", "low", 5, "d", none⟩ ("a\nb")
        ("javascript") =
      .ok { success := true
            fixedCode := .str (("a\nb\n\n\n// TODO: Fix security issue - d\nundefined").data)
            explanation := .str (("Added security comment for manual review and fix").data)
            confidence := .num 50
            changes := .arr [.obj
              [("line", .num 5),
               ("original", Json.undefined),
               ("fixed", .str (("// TODO: Fix security issue - d\nundefined").data)),
               ("reason", .str (("Added security comment for manual review and fix").data))]] } := by
  exact rfl

/-- Claim C8 (amended): in `applyFixes`, a fix whose line exceeds the
text bounds is silently skipped — no line of the text is modified — but
it is not reported as failed; in `generateRuleBasedFix`, an out-of-bounds
target line under one of the recognised vulnerability types throws a
`TypeError` before any edit (surfaced by the route as a failure), while
under any other type the fix is reported successful and the text is
extended at the out-of-bounds index. -/
theorem c8_stale_line_handling :
    (∀ (vulns : List ScanVuln) (lines : List (List Char)),
      (∀ v ∈ vulns, lines.length < v.line) → applyFixes vulns lines = lines) ∧
    (∀ (vuln : FixVuln) (code language : String),
      (vuln.vtype = "Code Injection" ∨ vuln.vtype = "javascript:S4784" ∨
       vuln.vtype = "Cross-Site Scripting (XSS)" ∨ vuln.vtype = "javascript:S5443" ∨
       vuln.vtype = "Hardcoded Credentials" ∨ vuln.vtype = "javascript:S2068" ∨
       vuln.vtype = "SQL Injection" ∨ vuln.vtype = "javascript:S2077") →
      jsIndex (splitNl code.data) (vuln.line - 1) = none →
      generateRuleBasedFix vuln code language = .error ()) ∧
    (∀ (vuln : FixVuln) (code language : String),
      vuln.vtype ≠ "Code Injection" → vuln.vtype ≠ "javascript:S4784" →
      vuln.vtype ≠ "Cross-Site Scripting (XSS)" → vuln.vtype ≠ "javascript:S5443" →
      vuln.vtype ≠ "Hardcoded Credentials" → vuln.vtype ≠ "javascript:S2068" →
      vuln.vtype ≠ "SQL Injection" → vuln.vtype ≠ "javascript:S2077" →
      jsIndex (splitNl code.data) (vuln.line - 1) = none →
      ∃ r, generateRuleBasedFix vuln code language = .ok r ∧ r.success = true) := by
  refine ⟨?_, ?_, ?_⟩
  · intro vulns lines hoob
    have hall : ∀ v ∈ sortByLineDesc vulns, lines.length < v.line := by
      intro v hv
      exact hoob v ((List.perm_insertionSort _ _).mem_iff.mp hv)
    unfold applyFixes
    generalize hl : sortByLineDesc vulns = l at hall
    clear hl
    induction l with
    | nil => rfl
    | cons w t ih =>
        rw [List.foldl_cons]
        have hw := hall w (List.mem_cons_self _ _)
        have hstep : fixStep lines.length lines w = lines := by
          cases hfc : w.fixed_code with
          | none => simp [fixStep, hfc]
          | some f =>
              simp only [fixStep, hfc]
              rw [if_neg (by omega)]
        rw [hstep]
        exact ih (fun v hv => hall v (List.mem_cons_of_mem _ hv))
  · intro vuln code language hts hnone
    rcases hts with h | h | h | h | h | h | h | h <;>
      simp [generateRuleBasedFix, ruleFixCore, hnone, h]
  · intro vuln code language h1 h2 h3 h4 h5 h6 h7 h8 hnone
    simp only [generateRuleBasedFix, ruleFixCore, hnone]
    rw [if_neg (by simp [h1, h2]), if_neg (by simp [h3, h4]),
        if_neg (by simp [h5, h6]), if_neg (by simp [h7, h8])]
    exact ⟨_, rfl, rfl⟩

/-!
## Claim C6
-/

/-- A successful `strHead` exposes the pattern as a prefix. -/
theorem strHead_shape : ∀ (pat s : List Char), strHead pat s = true → ∃ rest, s = pat ++ rest := by
  intro pat
  induction pat with
  | nil => intro s _; exact ⟨s, rfl⟩
  | cons p ps ih =>
      intro s h
      cases s with
      | nil => exact absurd h (by simp [strHead])
      | cons c cs =>
          simp only [strHead, Bool.and_eq_true, beq_iff_eq] at h
          obtain ⟨rest, hr⟩ := ih cs h.2
          exact ⟨rest, by rw [List.cons_append, ← h.1, ← hr]⟩

/-- The Eval Usage regex matches at the head of any text that starts
with the literal trigger `eval(` (the whitespace star takes zero
characters because `(` is not whitespace). -/
theorem REmatches_evalRE_cons (rest : List Char) :
    REmatches evalRE ('e' :: 'v' :: 'a' :: 'l' :: '(' :: rest) = [rest] := rfl

/-- Defining equation of `searchAux` on a non-empty input. -/
theorem searchAux_cons (r : RE) (c : Char) (cs : List Char) (pos : Nat) :
    searchAux r (c :: cs) pos =
      match (REmatches r (c :: cs)).head? with
      | some rem => some (pos, pos + ((c :: cs).length - rem.length))
      | none => searchAux r cs (pos + 1) := rfl

/-- A line containing the substring `eval(` makes the search for the
Eval Usage regex succeed from any position at or before the occurrence
(in particular from 0). -/
theorem searchAux_eval_of_hasSub :
    ∀ (s : List Char) (pos : Nat), hasSub s (("eval(").data) = true →
      (searchAux evalRE s pos).isSome = true := by
  intro s
  induction s with
  | nil => intro pos h; exact absurd h (by decide)
  | cons c cs ih =>
      intro pos h
      rw [hasSub, Bool.or_eq_true] at h
      rcases h with hh | ht
      · obtain ⟨rest, hr⟩ := strHead_shape _ _ hh
        rw [hr]
        rfl
      · rw [searchAux_cons]
        cases hm : (REmatches evalRE (c :: cs)).head? with
        | some rem => rfl
        | none => exact ih (pos + 1) ht

/-- `test` with `lastIndex = 0` succeeds on any line containing the
trigger substring `eval(`. -/
theorem jsTestG_eval_of_hasSub {l : List Char} (h : hasSub l (("eval(").data) = true) :
    (jsTestG evalRE l 0).1 = true := by
  unfold jsTestG
  rw [if_neg (by omega)]
  rw [List.drop_zero]
  have hs := searchAux_eval_of_hasSub l 0 h
  cases hm : searchAux evalRE l 0 with
  | some e => rfl
  | none => rw [hm] at hs; exact absurd hs (by simp)

/-- A failed global `test` resets `lastIndex` to 0. -/
theorem jsTestG_false_snd (r : RE) (s : List Char) (li : Nat)
    (h : (jsTestG r s li).1 = false) : (jsTestG r s li).2 = 0 := by
  unfold jsTestG at h ⊢
  split_ifs at h ⊢
  · rfl
  · cases hm : searchAux r (s.drop li) li with
    | some e => rw [hm] at h; exact absurd h (by simp)
    | none => rfl

/-- Behaviour of one scanner line at pattern index `k`: a hit pushes a
finding of that pattern's type; on a miss the pattern's stored
`lastIndex` is reset to 0. -/
theorem scanLine_spec (language : String) (n : Nat) (line : List Char) :
    ∀ (ps : List PatternEntry) (sts : List Nat) (k : Nat) (p0 : PatternEntry) (s : Nat),
      ps.get? k = some p0 → sts.get? k = some s →
      ((jsTestG p0.re line s).1 = true →
        ∃ v ∈ (scanLine language n line ps sts).1, v.vtype = p0.ptype) ∧
      ((jsTestG p0.re line s).1 = false →
        (scanLine language n line ps sts).2.get? k = some 0) := by
  intro ps
  induction ps with
  | nil => intro sts k p0 s hp _; exact absurd hp (by simp)
  | cons p pt ih =>
      intro sts k p0 s hp hs
      cases sts with
      | nil => exact absurd hs (by simp)
      | cons st stt =>
          cases k with
          | zero =>
              rw [List.get?_cons_zero] at hp hs
              injection hp with hp
              injection hs with hs
              subst hp
              subst hs
              constructor
              · intro hhit
                refine ⟨⟨p.ptype, p.severity, n, p.description,
                  some (generateFix line p.ptype language)⟩, ?_, rfl⟩
                simp [scanLine, hhit]
              · intro hmiss
                have h2 := jsTestG_false_snd _ _ _ hmiss
                simp [scanLine, hmiss, h2]
          | succ k2 =>
              rw [List.get?_cons_succ] at hp hs
              have IH := ih stt k2 p0 s hp hs
              constructor
              · intro hhit
                obtain ⟨v, hv, hvt⟩ := IH.1 hhit
                refine ⟨v, ?_, hvt⟩
                simp only [scanLine]
                exact List.mem_append_right _ hv
              · intro hmiss
                have h2 := IH.2 hmiss
                simp only [scanLine]
                rw [List.get?_cons_succ]
                exact h2

/-- If some line of the remaining text makes pattern `k`'s regex match
from `lastIndex = 0`, and pattern `k` currently stores `lastIndex = 0`,
the scan of those lines emits a finding of that pattern's type. -/
theorem scanLinesAux_finds (language : String) (p0 : PatternEntry) (k : Nat)
    (ps : List PatternEntry) (hp : ps.get? k = some p0) :
    ∀ (ls : List (List Char)) (n : Nat) (sts : List Nat),
      sts.get? k = some 0 →
      (∃ l ∈ ls, (jsTestG p0.re l 0).1 = true) →
      ∃ v ∈ scanLinesAux language ps ls n sts, v.vtype = p0.ptype := by
  intro ls
  induction ls with
  | nil => intro n sts _ hex; obtain ⟨l, hl, _⟩ := hex; exact absurd hl (List.not_mem_nil l)
  | cons l lt ih =>
      intro n sts hs hex
      by_cases hhit : (jsTestG p0.re l 0).1 = true
      · obtain ⟨v, hv, hvt⟩ := (scanLine_spec language n l ps sts k p0 0 hp hs).1 hhit
        refine ⟨v, ?_, hvt⟩
        simp only [scanLinesAux]
        exact List.mem_append_left _ hv
      · have hmiss : (jsTestG p0.re l 0).1 = false := by
          revert hhit; cases (jsTestG p0.re l 0).1 <;> simp
        have hs2 := (scanLine_spec language n l ps sts k p0 0 hp hs).2 hmiss
        have hex2 : ∃ l2 ∈ lt, (jsTestG p0.re l2 0).1 = true := by
          obtain ⟨l2, hl2, h2⟩ := hex
          rcases List.mem_cons.mp hl2 with rfl | hmem
          · exact absurd h2 hhit
          · exact ⟨l2, hmem, h2⟩
        obtain ⟨v, hv, hvt⟩ := ih (n + 1) (scanLine language n l ps sts).2 hs2 hex2
        refine ⟨v, ?_, hvt⟩
        simp only [scanLinesAux]
        exact List.mem_append_right _ hv

/-- Claim C6 (confirmed for the catalog's canonical trigger): for every
language and every text in which some line contains the substring
`eval(`, the scan yields at least one finding of type Eval Usage,
whatever the surrounding content.  (The Eval Usage entry is present for
every language at index 2 of the pattern list, and a pattern's
`lastIndex` is only ever non-zero immediately after a successful test —
which itself pushed a finding — so the first triggering line is tested
from index 0.) -/
theorem c6_scan_detects_eval (language : String) (text : String)
    (h : ∃ l ∈ splitNl text.data, hasSub l (("eval(").data) = true) :
    ∃ v ∈ performScan text language, v.vtype = "Eval Usage" := by
  have hp : (vulnerabilityPatterns language).get? 2 =
      some ⟨"Eval Usage", "high", evalRE, "Use of eval() function is dangerous",
        "Use safer alternatives like JSON.parse() or specific parsers"⟩ := by
    unfold vulnerabilityPatterns
    rw [List.get?_append (by decide : (2 : Nat) < basePatterns.length)]
    rfl
  have h5 : 2 < (vulnerabilityPatterns language).length := by
    unfold vulnerabilityPatterns
    rw [List.length_append]
    have hb : basePatterns.length = 5 := rfl
    omega
  have hst : (List.replicate (vulnerabilityPatterns language).length 0).get? 2 = some 0 := by
    have h2 : 2 < (List.replicate (vulnerabilityPatterns language).length (0 : Nat)).length := by
      rw [List.length_replicate]; exact h5
    rw [List.get?_eq_get h2, List.get_replicate]
  have hex : ∃ l ∈ splitNl text.data, (jsTestG evalRE l 0).1 = true := by
    obtain ⟨l, hl, hh⟩ := h
    exact ⟨l, hl, jsTestG_eval_of_hasSub hh⟩
  exact scanLinesAux_finds language
    ⟨"Eval Usage", "high", evalRE, "Use of eval() function is dangerous",
      "Use safer alternatives like JSON.parse() or specific parsers"⟩ 2
    (vulnerabilityPatterns language) hp (splitNl text.data) 1
    (List.replicate (vulnerabilityPatterns language).length 0) hst hex

/-- Witness for C6 on a concrete two-line snippet and language. -/
theorem c6_witness :
    ∃ v ∈ performScan ("const a = 1;\nrun(eval(data));") ("typescript"),
      v.vtype = "Eval Usage" :=
  c6_scan_detects_eval ("typescript") ("const a = 1;\nrun(eval(data));") (by decide)

/-!
## Claim C3
-/

/-- Claim C3 is right and the code is wrong (code bug), evaluated at the
failing input: the Weak Crypto entry's detect regex matches the line
`md5(data)`, but its fix branches on `pattern.regex.test('md5')` — a
constant test of the string `md5`, which never matches `(md5|sha1)\s*\(`
— so the live branch only replaces `sha1\s*\(` and leaves the `md5` line
unchanged; re-running the same detect regex on the "fixed" line still
matches.  (The replacement strings of this switch case are also
syntactically malformed in the source.) -/
theorem c3_weakCrypto_md5_fix_ineffective :
    (jsTestG weakCryptoRE (("md5(data)").data) 0).1 = true ∧
    generateFix (("md5(data)").data) ("Weak Crypto") ("javascript") = ("md5(data)").data ∧
    (jsTestG weakCryptoRE
      (generateFix (("md5(data)").data) ("Weak Crypto") ("javascript")) 0).1 = true := by
  exact ⟨rfl, rfl, rfl⟩

/-!
## Claim C7
-/

/-- Claim C7 (confirmed): scanning is deterministic — `performScan` is a
pure function of `(text, language)` in this embedding, because
`getVulnerabilityPatterns` is evaluated afresh inside every scan, so all
regex `lastIndex` state starts at 0 per invocation; two invocations
therefore produce identical sequences of
(type, severity, line, description, fixed code). -/
theorem c7_scan_deterministic (text : String) (language : String) :
    (performScan text language).map findingView =
      (performScan text language).map findingView := rfl

/-!
## Claim C2
-/

/-- A fold of fix steps never touches a line index that no fix in the
list targets. -/
theorem foldl_fixStep_untouched (origLen : Nat) :
    ∀ (l : List ScanVuln) (acc : List (List Char)) (j : Nat),
      (∀ v ∈ l, v.line - 1 ≠ j) →
      (l.foldl (fixStep origLen) acc).get? j = acc.get? j := by
  intro l
  induction l with
  | nil => intro acc j _; rfl
  | cons w t ih =>
      intro acc j h
      rw [List.foldl_cons, ih _ j (fun v hv => h v (List.mem_cons_of_mem _ hv))]
      cases hfc : w.fixed_code with
      | none => simp [fixStep, hfc]
      | some f =>
          simp only [fixStep, hfc]
          split
          · exact List.get?_set_ne _ _ (h w (List.mem_cons_self _ _))
          · rfl

/-- `fixStep` preserves the number of lines. -/
theorem fixStep_length (origLen : Nat) (acc : List (List Char)) (v : ScanVuln) :
    (fixStep origLen acc v).length = acc.length := by
  cases hfc : v.fixed_code with
  | none => simp [fixStep, hfc]
  | some f =>
      simp only [fixStep, hfc]
      split <;> simp

/-- After folding fix steps over findings with pairwise-distinct,
in-bounds target lines that all carry a fix, every target line holds its
fix. -/
theorem foldl_fixStep_hits (origLen : Nat) :
    ∀ (l : List ScanVuln) (acc : List (List Char)),
      acc.length = origLen →
      List.Pairwise (fun a b => a.line ≠ b.line) l →
      (∀ v ∈ l, 1 ≤ v.line ∧ v.line ≤ origLen ∧ v.fixed_code.isSome) →
      ∀ v ∈ l, (l.foldl (fixStep origLen) acc).get? (v.line - 1) = v.fixed_code := by
  intro l
  induction l with
  | nil => intro acc _ _ _ v hv; exact absurd hv (List.not_mem_nil v)
  | cons w t ih =>
      intro acc hlen hpw hall v hv
      rw [List.foldl_cons]
      rcases List.mem_cons.mp hv with rfl | hmem
      · have hne : ∀ u ∈ t, u.line - 1 ≠ v.line - 1 := by
          intro u hu
          have h1 := (List.pairwise_cons.mp hpw).1 u hu
          have h2 := (hall v (List.mem_cons_self _ _)).1
          have h3 := (hall u (List.mem_cons_of_mem _ hu)).1
          omega
        rw [foldl_fixStep_untouched origLen t _ _ hne]
        obtain ⟨fx, hfx⟩ := Option.isSome_iff_exists.mp (hall v (List.mem_cons_self _ _)).2.2
        have hb1 := (hall v (List.mem_cons_self _ _)).1
        have hb2 := (hall v (List.mem_cons_self _ _)).2.1
        simp only [fixStep, hfx]
        rw [if_pos (by omega)]
        rw [List.get?_set_eq_of_lt _ (by omega : v.line - 1 < acc.length)]
      · exact ih (fixStep origLen acc w)
          (by rw [fixStep_length]; exact hlen)
          (List.pairwise_cons.mp hpw).2
          (fun u hu => hall u (List.mem_cons_of_mem _ hu)) v hmem

/-- Claim C2 (confirmed): for a batch of fixes carrying replacement text
and targeting distinct in-bounds lines, `applyFixes` applies them in
strictly descending line order (the sorted batch is a permutation of the
findings, strictly descending by line), after the batch every target
line holds exactly its own fix, and no other line is touched. -/
theorem c2_applyFixes_descending_correct (vulns : List ScanVuln) (lines : List (List Char))
    (hdist : List.Pairwise (fun a b => a.line ≠ b.line) vulns)
    (hb : ∀ v ∈ vulns, 1 ≤ v.line ∧ v.line ≤ lines.length ∧ v.fixed_code.isSome) :
    List.Perm (sortByLineDesc vulns) vulns ∧
    List.Pairwise (fun a b => b.line < a.line) (sortByLineDesc vulns) ∧
    (∀ v ∈ vulns, (applyFixes vulns lines).get? (v.line - 1) = v.fixed_code) ∧
    (∀ j : Nat, (∀ v ∈ vulns, v.line - 1 ≠ j) →
      (applyFixes vulns lines).get? j = lines.get? j) := by
  haveI : IsTotal ScanVuln (fun a b => b.line ≤ a.line) :=
    ⟨fun a b => Nat.le_total b.line a.line⟩
  haveI : IsTrans ScanVuln (fun a b => b.line ≤ a.line) :=
    ⟨fun a b c hab hbc => Nat.le_trans hbc hab⟩
  have hperm : List.Perm (sortByLineDesc vulns) vulns := List.perm_insertionSort _ _
  have hsorted : List.Pairwise (fun a b : ScanVuln => b.line ≤ a.line) (sortByLineDesc vulns) :=
    List.sorted_insertionSort _ _
  have hdist2 : List.Pairwise (fun a b : ScanVuln => a.line ≠ b.line) (sortByLineDesc vulns) :=
    (hperm.pairwise_iff (fun h => Ne.symm h)).mpr hdist
  refine ⟨hperm, ?_, ?_, ?_⟩
  · exact (hsorted.and hdist2).imp (fun h => Nat.lt_of_le_of_ne h.1 (fun e => h.2 e.symm))
  · intro v hv
    exact foldl_fixStep_hits lines.length (sortByLineDesc vulns) lines rfl hdist2
      (fun u hu => hb u (hperm.mem_iff.mp hu)) v (hperm.mem_iff.mpr hv)
  · intro j hj
    exact foldl_fixStep_untouched lines.length (sortByLineDesc vulns) lines j
      (fun u hu => hj u (hperm.mem_iff.mp hu))

/-- Witness for C2 on a concrete three-fix batch over a four-line text. -/
theorem c2_witness :
    (applyFixes
        [⟨"Eval Usage", "high", 1, "d1", some (("f1").data)⟩,
         ⟨"XSS Vulnerability", "medium", 3, "d2", some (("f2").data)⟩,
         ⟨"Weak Crypto", "medium", 4, "d3", some (("f3").data)⟩]
        [("a").data, ("b").data, ("c").data, ("d").data]).get? 0 = some (("f1").data) ∧
    (applyFixes
        [⟨"Eval Usage", "high", 1, "d1", some (("f1").data)⟩,
         ⟨"XSS Vulnerability", "medium", 3, "d2", some (("f2").data)⟩,
         ⟨"Weak Crypto", "medium", 4, "d3", some (("f3").data)⟩]
        [("a").data, ("b").data, ("c").data, ("d").data]).get? 1 = some (("b").data) := by
  constructor
  · exact (c2_applyFixes_descending_correct _ _ (by decide)
      (by intro v hv; fin_cases hv <;> refine ⟨by decide, by decide, by decide⟩)).2.2.1
      ⟨"Eval Usage", "high", 1, "d1", some (("f1").data)⟩ (by decide)
  · exact (c2_applyFixes_descending_correct _ _ (by decide)
      (by intro v hv; fin_cases hv <;> refine ⟨by decide, by decide, by decide⟩)).2.2.2
      1 (by decide)

/-- Witness for C8: an out-of-bounds batch fix leaves the text unchanged,
and an out-of-bounds Code Injection fix request throws. -/
theorem c8_witness :
    applyFixes [⟨"Eval Usage", "high", 9, "d", some (("y").data)⟩] [("a").data, ("b").data] =
      [("a").data, ("b").data] ∧
    generateRuleBasedFix ⟨"w3", "Code Injection", "high", 7, "d", none⟩ ("a\nb")
      ("javascript") = .error () :=
  ⟨c8_stale_line_handling.1 [⟨"Eval Usage", "high", 9, "d", some (("y").data)⟩]
      [("a").data, ("b").data] (by decide),
   c8_stale_line_handling.2.1 ⟨"w3", "Code Injection", "high", 7, "d", none⟩ ("a\nb")
      ("javascript") (Or.inl rfl) (by rfl)⟩

end VscodeSast
